import Mathlib

/-!
Verification of the Tornado plugin for apispec (`apispec_webframeworks/tornado.py`).

The plugin has four pieces, each embedded below:

* `operations_from_methods` — the Operation Extractor (`TornadoPlugin._operations_from_methods`):
  walks the recognized HTTP verb names, parses each verb method's docstring and keeps the
  non-empty results.
* `tornadopath2openapi` — the Path Normalizer (`TornadoPlugin.tornadopath2openapi`):
  converts a Tornado `URLSpec` into an OpenAPI path template.
* `extensions_from_handler` — Handler Metadata Extraction
  (`TornadoPlugin._extensions_from_handler`).
* `path_helper` — the orchestration entry point (`TornadoPlugin.path_helper`).

External collaborators are modelled at their interface, as parameters:

* the docstring parser `yaml_utils.load_yaml_from_docstring` becomes a parameter
  `parse : Option String → List (String × Data)` (a Python `dict` is an insertion-ordered
  association list; a missing docstring is `none`; an empty/NUL parse result is `[]`);
* the recognized verb enumeration `yaml_utils.PATH_KEYS`, as this module iterates it,
  becomes a parameter `pathKeys : List String`;
* `inspect.signature(method).parameters.keys()` becomes the `verbParams` field of the
  handler model — a verb method is represented by its declared parameter-name list;
* Python exceptions become the `Except` monad with the `PyError` error type.
-/

namespace ApispecTornado

/-- Arbitrary YAML-like structured data, the value type of operation descriptions
(`dict[str, Any]` in the source). Only the mapping layer matters to the plugin. -/
inductive Data where
  | s : String → Data
  | m : List (String × Data) → Data

/-- Lookup in an insertion-ordered association list, the model of a Python `dict`:
returns the value of the first entry with the given key. -/
def dictGet {α : Type} (d : List (String × α)) (k : String) : Option α :=
  match d with
  | [] => none
  | p :: rest => if p.1 = k then some p.2 else dictGet rest k

/-- Single-key Python `dict` write `d[k] = v`: if the key is present its value is replaced
in place (keeping its position), otherwise the pair is appended at the end. -/
def dictUpdate1 {α : Type} (d : List (String × α)) (k : String) (v : α) : List (String × α) :=
  if d.any (fun p => decide (p.1 = k)) then d.map (fun p => if p.1 = k then (k, v) else p)
  else d ++ [(k, v)]

/-- Python `d.update(new)`: write every entry of `new` into `d`, in order. -/
def dictUpdate {α : Type} (d new : List (String × α)) : List (String × α) :=
  new.foldl (fun acc p => dictUpdate1 acc p.1 p.2) d

/-- The compiled route regex, as the plugin consumes it: its number of capturing groups
(`regex.groups`) and its name-to-group-index mapping (`regex.groupindex`). -/
structure Regex where
  groups : Nat
  groupindex : List (String × Nat)

/-- The handler class, as the plugin consumes it: the class docstring (`__doc__`),
each verb method's docstring (`getattr(handler_class, verb).__doc__`; Tornado's
`RequestHandler` base class defines every recognized verb, so the lookup is total and an
un-overridden verb simply has no docstring), and each verb method's declared parameter
names (`inspect.signature`). -/
structure HandlerClass where
  doc : Option String
  verbDoc : String → Option String
  verbParams : String → List String

/-- A Tornado `URLSpec`, as the plugin consumes it: the compiled regex
(`urlspec.matcher.regex`), the positional template string (`urlspec.matcher._path`,
with one `%s` slot per capturing group) and the handler class. -/
structure URLSpec where
  regex : Regex
  path_tpl : String
  handler_class : HandlerClass

/-- Python truthiness of an optional docstring: `None` and `""` are falsy. -/
def docTruthy : Option String → Bool
  | none => false
  | some d => !(d == "")

/-- Characters removed by the trailing trim `path.rstrip("/?*")`. -/
def isTrimChar (c : Char) : Bool := c == '/' || c == '?' || c == '*'

/-- The final step of the Path Normalizer:
`if path.count("/") > 1: path = path.rstrip("/?*")`. -/
def trimPath (path : String) : String :=
  if path.data.count '/' > 1 then String.mk ((path.data.reverse.dropWhile isTrimChar).reverse)
  else path

/-- Comparison by group index, the sort key `lambda kv: kv[1]` of the source. -/
def idxLe (a b : String × Nat) : Prop := a.2 ≤ b.2

instance : DecidableRel idxLe := fun a b => inferInstanceAs (Decidable (a.2 ≤ b.2))

instance : IsTotal (String × Nat) idxLe := ⟨fun a b => Nat.le_total a.2 b.2⟩

instance : IsTrans (String × Nat) idxLe := ⟨fun _ _ _ h1 h2 => Nat.le_trans h1 h2⟩

/-- Strict comparison by group index, used to show the sorted order is unique when all
indices are distinct. -/
def idxLt (a b : String × Nat) : Prop := a.2 < b.2

instance : IsAntisymm (String × Nat) idxLt := ⟨fun _ _ h1 h2 => (Nat.lt_asymm h1 h2).elim⟩

/-- `sorted(regex.groupindex.items(), key=lambda kv: kv[1])`: stable sort of the
name-to-index pairs by ascending group index. -/
def sortByIndex (groupindex : List (String × Nat)) : List (String × Nat) :=
  List.insertionSort idxLe groupindex

/-- The f-string `f"{\x7b}{arg}{\x7d}"` of the source: wrap a parameter name in braces. -/
def braceArg (arg : String) : String := "\x7b" ++ arg ++ "\x7d"

/-- Python `%`-formatting of a template against a tuple of string arguments
(`path_tpl % params`). Scans the template left to right; `%s` consumes the next argument,
`%%` renders a literal percent; a slot with no argument left, a leftover argument, a
trailing lone `%` or any other conversion character raise the corresponding Python error. -/
def pformat : List Char → List String → Except String (List Char)
  | [], args =>
    if args.isEmpty then Except.ok []
    else Except.error "not all arguments converted during string formatting"
  | c :: rest, args =>
    if c = '%' then
      match rest with
      | [] => Except.error "incomplete format"
      | d :: rest2 =>
        if d = 's' then
          match args with
          | [] => Except.error "not enough arguments for format string"
          | arg :: args2 => Except.map (fun t => arg.data ++ t) (pformat rest2 args2)
        else if d = '%' then Except.map (fun t => '%' :: t) (pformat rest2 args)
        else Except.error "unsupported format character"
    else Except.map (fun t => c :: t) (pformat rest args)

/-- String-level wrapper of `pformat`. -/
def formatPercent (tpl : String) (args : List String) : Except String String :=
  Except.map String.mk (pformat tpl.data args)

/-- Number of `%s` substitution slots of a template. -/
def slotCount : List Char → Nat
  | [] => 0
  | c :: rest =>
    if c = '%' then
      match rest with
      | [] => 0
      | d :: rest2 => (if d = 's' then 1 else 0) + slotCount rest2
    else slotCount rest

/-- A template is well formed when its only conversions are `%s` and `%%` — true of every
template Tornado builds for a `URLSpec`. -/
def wellFormedTpl : List Char → Bool
  | [] => true
  | c :: rest =>
    if c = '%' then
      match rest with
      | [] => false
      | d :: rest2 => (d = 's' || d = '%') && wellFormedTpl rest2
    else wellFormedTpl rest

/-- The Path Normalizer `TornadoPlugin.tornadopath2openapi`. The method argument is
represented by its declared parameter-name list (see the module docstring above).

```python
if regex.groups:
    if regex.groupindex:
        sorted_pairs = sorted(((k, v) for k, v in regex.groupindex.items()),
                              key=lambda kv: kv[1])
        args = [pair[0] for pair in sorted_pairs]
    else:
        args = list(inspect.signature(method).parameters.keys())[1:]
    params = tuple(f"..." for arg in args)
    path = path_tpl % params
else:
    path = path_tpl
if path.count("/") > 1:
    path = path.rstrip("/?*")
return path
```
-/
def tornadopath2openapi (urlspec : URLSpec) (methodParams : List String) :
    Except String String :=
  if urlspec.regex.groups > 0 then
    Except.map trimPath
      (formatPercent urlspec.path_tpl
        ((if !urlspec.regex.groupindex.isEmpty then
            (sortByIndex urlspec.regex.groupindex).map Prod.fst
          else methodParams.drop 1).map braceArg))
  else Except.ok (trimPath urlspec.path_tpl)

/-- The Operation Extractor `TornadoPlugin._operations_from_methods`: for each recognized
verb, parse the verb method's docstring; yield `(verb, data)` exactly when the parse result
is non-empty (the yielded singleton dict `\x7bhttpmethod: operation_data\x7d` of the source
is represented by the pair it carries). -/
def operations_from_methods (pathKeys : List String)
    (parse : Option String → List (String × Data)) (handler_class : HandlerClass) :
    List (String × Data) :=
  pathKeys.filterMap (fun httpmethod =>
    let operation_data := parse (handler_class.verbDoc httpmethod)
    if operation_data.isEmpty then none else some (httpmethod, Data.m operation_data))

/-- Python exceptions escaping the plugin. -/
inductive PyError where
  | assertionError : PyError
  | indexError : PyError
  | apiSpecError : String → PyError
  | formatError : String → PyError
deriving DecidableEq

/-- Handler Metadata Extraction `TornadoPlugin._extensions_from_handler`:
`assert handler_class.__doc__` then parse the class docstring. -/
def extensions_from_handler (parse : Option String → List (String × Data))
    (handler_class : HandlerClass) : Except PyError (List (String × Data)) :=
  if docTruthy handler_class.doc then Except.ok (parse handler_class.doc)
  else Except.error PyError.assertionError

/-- The orchestration entry point `TornadoPlugin.path_helper`. The `urlspec` argument is
taken already coerced to a `URLSpec` (the `URLSpec(*urlspec)` tuple coercion is the routing
library's constructor, external to the plugin); `operations = none` models passing `None`.
The source mutates the caller's `operations` dict in place and returns the path; the model
returns the pair of the path and the final mapping. `PyError.apiSpecError` carries the
route pattern of the message `f"Could not find endpoint for urlspec ..."`.

```python
assert operations
...
for operation in self._operations_from_methods(urlspec.handler_class):
    operations.update(operation)
if not operations:
    raise APISpecError(...)
params_method = getattr(urlspec.handler_class, list(operations.keys())[0])
operations.update(self._extensions_from_handler(urlspec.handler_class))
return self.tornadopath2openapi(urlspec, params_method)
```
-/
def path_helper (pathKeys : List String) (parse : Option String → List (String × Data))
    (operations : Option (List (String × Data))) (urlspec : URLSpec) :
    Except PyError (String × List (String × Data)) :=
  match operations with
  | none => Except.error PyError.assertionError
  | some ops0 =>
    if ops0.isEmpty then Except.error PyError.assertionError else
    let ops1 := (operations_from_methods pathKeys parse urlspec.handler_class).foldl
        (fun acc op => dictUpdate1 acc op.1 op.2) ops0
    if ops1.isEmpty then Except.error (PyError.apiSpecError urlspec.path_tpl) else
    match (ops1.map Prod.fst).head? with
    | none => Except.error PyError.indexError
    | some firstKey =>
      match extensions_from_handler parse urlspec.handler_class with
      | Except.error e => Except.error e
      | Except.ok ext =>
        match tornadopath2openapi urlspec (urlspec.handler_class.verbParams firstKey) with
        | Except.ok path => Except.ok (path, dictUpdate ops1 ext)
        | Except.error e => Except.error (PyError.formatError e)

/-! ### Concrete fixtures used by the witness theorems -/

/-- One possible iteration order of the recognized HTTP verb set `yaml_utils.PATH_KEYS`;
the claim theorems are parametric in the enumeration and only the witnesses use this one. -/
def PATH_KEYS : List String := ["get", "put", "post", "delete", "options", "head", "patch"]

/-- A docstring parser that finds nothing — models handlers with no embedded metadata. -/
def emptyParse : Option String → List (String × Data) := fun _ => []

/-- A docstring parser fixture: the `get` method docstring carries metadata, and the class
docstring carries handler-level metadata colliding with the extracted `get` key. -/
def demoParse : Option String → List (String × Data)
  | some "getdoc" => [("tags", Data.s "method"), ("description", Data.s "get op")]
  | some "classdoc" => [("get", Data.s "handlerwins"), ("tags", Data.s "handler")]
  | _ => []

/-- A handler with a documented `get` method and a documented class docstring. -/
def demoHandler : HandlerClass :=
  ⟨some "classdoc", fun v => if v = "get" then some "getdoc" else none, fun _ => ["self"]⟩

/-- A handler with no docstrings anywhere. -/
def nodocHandler : HandlerClass := ⟨none, fun _ => none, fun _ => ["self"]⟩

/-- A handler whose class docstring is present; its verb methods have no docstrings. -/
def classdocHandler : HandlerClass := ⟨some "classdoc", fun _ => none, fun _ => ["self"]⟩

/-! ### Association-list (Python `dict`) lemmas -/

theorem dictUpdate1_ne_nil {α : Type} (d : List (String × α)) (k : String) (v : α) :
    dictUpdate1 d k v ≠ [] := by
  unfold dictUpdate1
  split
  · intro h
    rcases d with _ | ⟨p, rest⟩
    · simp at *
    · simp at h
  · simp

theorem foldl_dictUpdate1_ne_nil {α : Type} (l : List (String × α)) :
    ∀ d : List (String × α), d ≠ [] →
      l.foldl (fun acc op => dictUpdate1 acc op.1 op.2) d ≠ [] := by
  induction l with
  | nil => intro d hd; simpa using hd
  | cons p t ih =>
    intro d _
    simp only [List.foldl_cons]
    exact ih (dictUpdate1 d p.1 p.2) (dictUpdate1_ne_nil d p.1 p.2)

theorem dictGet_map_replace_self {α : Type} (k : String) (v : α) :
    ∀ d : List (String × α),
      dictGet (d.map (fun p => if p.1 = k then (k, v) else p)) k
        = if d.any (fun p => decide (p.1 = k)) then some v else none := by
  intro d
  induction d with
  | nil => rfl
  | cons p rest ih =>
    by_cases hp : p.1 = k
    · simp [dictGet, hp]
    · simp only [List.map_cons, List.any_cons, if_neg hp, dictGet, ih,
        decide_eq_false hp, Bool.false_or]

theorem dictGet_map_replace_ne {α : Type} (k k' : String) (v : α) (hne : k ≠ k') :
    ∀ d : List (String × α),
      dictGet (d.map (fun p => if p.1 = k then (k, v) else p)) k' = dictGet d k' := by
  intro d
  induction d with
  | nil => rfl
  | cons p rest ih =>
    by_cases hp : p.1 = k
    · have hp' : ¬p.1 = k' := by
        rw [hp]; exact hne
      simp [dictGet, hp, hp', hne, ih]
    · by_cases hq : p.1 = k'
      · have hne' : ¬(k' = k) := fun h => hne (Eq.symm h)
        simp [dictGet, hp, hq, hne']
      · simp [dictGet, hp, hq, ih]

theorem dictGet_append_single_ne {α : Type} (k k' : String) (v : α) (hne : k ≠ k') :
    ∀ d : List (String × α), dictGet (d ++ [(k, v)]) k' = dictGet d k' := by
  intro d
  induction d with
  | nil => simp [dictGet, hne]
  | cons p rest ih =>
    by_cases hq : p.1 = k'
    · simp [dictGet, hq]
    · simp [dictGet, hq, ih]

theorem dictGet_append_single_self {α : Type} (k : String) (v : α) :
    ∀ d : List (String × α), d.any (fun p => decide (p.1 = k)) = false →
      dictGet (d ++ [(k, v)]) k = some v := by
  intro d
  induction d with
  | nil => intro _; simp [dictGet]
  | cons p rest ih =>
    intro hany
    simp only [List.any_cons, Bool.or_eq_false_iff, decide_eq_false_iff_not] at hany
    simp only [List.cons_append, dictGet, if_neg hany.1]
    exact ih (by simpa using hany.2)

theorem dictGet_update1_self {α : Type} (d : List (String × α)) (k : String) (v : α) :
    dictGet (dictUpdate1 d k v) k = some v := by
  unfold dictUpdate1
  split
  · rename_i hany
    rw [dictGet_map_replace_self, if_pos hany]
  · rename_i hany
    simp only [Bool.not_eq_true] at hany
    exact dictGet_append_single_self k v d hany

theorem dictGet_update1_ne {α : Type} (d : List (String × α)) (k k' : String) (v : α)
    (hne : k ≠ k') : dictGet (dictUpdate1 d k v) k' = dictGet d k' := by
  unfold dictUpdate1
  split
  · exact dictGet_map_replace_ne k k' v hne d
  · exact dictGet_append_single_ne k k' v hne d

theorem dictGet_dictUpdate_not_mem {α : Type} (new : List (String × α)) :
    ∀ (d : List (String × α)) (k : String), k ∉ new.map Prod.fst →
      dictGet (dictUpdate d new) k = dictGet d k := by
  induction new with
  | nil => intro d k _; rfl
  | cons p t ih =>
    intro d k hk
    simp only [List.map_cons, List.mem_cons, not_or] at hk
    show dictGet (dictUpdate (dictUpdate1 d p.1 p.2) t) k = dictGet d k
    rw [ih _ _ hk.2, dictGet_update1_ne _ p.1 k p.2 (fun h => hk.1 h.symm)]

theorem dictGet_dictUpdate_mem {α : Type} (new : List (String × α)) :
    ∀ (d : List (String × α)) (k : String), (new.map Prod.fst).Nodup →
      k ∈ new.map Prod.fst → dictGet (dictUpdate d new) k = dictGet new k := by
  induction new with
  | nil => intro d k _ hk; simp at hk
  | cons p t ih =>
    intro d k hnd hk
    simp only [List.map_cons, List.nodup_cons] at hnd
    simp only [List.map_cons, List.mem_cons] at hk
    show dictGet (dictUpdate (dictUpdate1 d p.1 p.2) t) k = dictGet (p :: t) k
    rcases hk with hk | hk
    · subst hk
      rw [dictGet_dictUpdate_not_mem t _ _ hnd.1, dictGet_update1_self]
      simp [dictGet]
    · have hne : ¬p.1 = k := by
        intro h; rw [h] at hnd; exact hnd.1 hk
      rw [ih _ k hnd.2 hk]
      simp [dictGet, hne]

/-! ### `%`-formatting lemmas -/

theorem wellFormedTpl_pcons (d : Char) (rest2 : List Char) :
    wellFormedTpl ('%' :: d :: rest2) = ((d = 's' || d = '%') && wellFormedTpl rest2) := rfl

theorem wellFormedTpl_cons_ne (c : Char) (rest : List Char) (hc : ¬c = '%') :
    wellFormedTpl (c :: rest) = wellFormedTpl rest := by
  rw [wellFormedTpl.eq_def]
  exact if_neg hc

theorem slotCount_pcons (d : Char) (rest2 : List Char) :
    slotCount ('%' :: d :: rest2) = (if d = 's' then 1 else 0) + slotCount rest2 := rfl

theorem slotCount_cons_ne (c : Char) (rest : List Char) (hc : ¬c = '%') :
    slotCount (c :: rest) = slotCount rest := by
  rw [slotCount.eq_def]
  exact if_neg hc

theorem pformat_cons_ne (c : Char) (rest : List Char) (args : List String) (hc : ¬c = '%') :
    pformat (c :: rest) args = Except.map (fun t => c :: t) (pformat rest args) := by
  rw [pformat.eq_def]
  exact if_neg hc

theorem pformat_not_enough (l : List Char) (args : List String) :
    wellFormedTpl l = true → args.length < slotCount l →
    pformat l args = Except.error "not enough arguments for format string" := by
  induction l, args using pformat.induct with
  | case1 args h =>
    intro _ hlen
    simp [slotCount] at hlen
  | case2 args h =>
    intro _ hlen
    simp [slotCount] at hlen
  | case3 args =>
    intro hwf _
    simp [wellFormedTpl] at hwf
  | case4 rest2 =>
    intro _ _
    rfl
  | case5 rest2 arg args2 ih =>
    intro hwf hlen
    simp [wellFormedTpl_pcons] at hwf
    simp [slotCount_pcons] at hlen
    show Except.map (fun t => arg.data ++ t) (pformat rest2 args2)
        = Except.error "not enough arguments for format string"
    rw [ih hwf (by omega)]
    rfl
  | case6 args rest2 h ih =>
    intro hwf hlen
    simp [wellFormedTpl_pcons] at hwf
    simp [slotCount_pcons] at hlen
    show Except.map (fun t => '%' :: t) (pformat rest2 args)
        = Except.error "not enough arguments for format string"
    rw [ih hwf (by omega)]
    rfl
  | case7 args d rest2 hd hd2 =>
    intro hwf _
    simp [wellFormedTpl_pcons, hd, hd2] at hwf
  | case8 c rest args hc ih =>
    intro hwf hlen
    rw [wellFormedTpl_cons_ne c rest hc] at hwf
    rw [slotCount_cons_ne c rest hc] at hlen
    rw [pformat_cons_ne c rest args hc, ih hwf hlen]
    rfl

theorem pformat_too_many (l : List Char) (args : List String) :
    wellFormedTpl l = true → slotCount l < args.length →
    pformat l args = Except.error "not all arguments converted during string formatting" := by
  induction l, args using pformat.induct with
  | case1 args h =>
    intro _ hlen
    simp only [List.isEmpty_iff] at h
    subst h
    simp [slotCount] at hlen
  | case2 args h =>
    intro _ _
    simp only [pformat, if_neg h]
  | case3 args =>
    intro hwf _
    simp [wellFormedTpl] at hwf
  | case4 rest2 =>
    intro _ hlen
    simp [slotCount_pcons] at hlen
  | case5 rest2 arg args2 ih =>
    intro hwf hlen
    simp [wellFormedTpl_pcons] at hwf
    simp [slotCount_pcons] at hlen
    show Except.map (fun t => arg.data ++ t) (pformat rest2 args2)
        = Except.error "not all arguments converted during string formatting"
    rw [ih hwf (by omega)]
    rfl
  | case6 args rest2 h ih =>
    intro hwf hlen
    simp [wellFormedTpl_pcons] at hwf
    simp [slotCount_pcons] at hlen
    show Except.map (fun t => '%' :: t) (pformat rest2 args)
        = Except.error "not all arguments converted during string formatting"
    rw [ih hwf (by omega)]
    rfl
  | case7 args d rest2 hd hd2 =>
    intro hwf _
    simp [wellFormedTpl_pcons, hd, hd2] at hwf
  | case8 c rest args hc ih =>
    intro hwf hlen
    rw [wellFormedTpl_cons_ne c rest hc] at hwf
    rw [slotCount_cons_ne c rest hc] at hlen
    rw [pformat_cons_ne c rest args hc, ih hwf hlen]
    rfl

/-! ### Trailing-trim lemmas -/

theorem dropWhile_head_not (p : Char → Bool) :
    ∀ (l : List Char) (c : Char), (l.dropWhile p).head? = some c → p c = false := by
  intro l
  induction l with
  | nil => intro c h; simp [List.dropWhile] at h
  | cons a t ih =>
    intro c h
    by_cases ha : p a
    · rw [List.dropWhile_cons_of_pos ha] at h
      exact ih c h
    · rw [List.dropWhile_cons_of_neg ha] at h
      simp only [List.head?_cons, Option.some.injEq] at h
      subst h
      simpa using ha

theorem trimPath_of_count_le (s : String) (h : ¬s.data.count '/' > 1) : trimPath s = s := by
  unfold trimPath
  rw [if_neg h]

theorem trimPath_decomp (s : String) (h : s.data.count '/' > 1) :
    s.data = (trimPath s).data ++ (s.data.reverse.takeWhile isTrimChar).reverse
      ∧ ∀ c ∈ (s.data.reverse.takeWhile isTrimChar).reverse, isTrimChar c = true := by
  constructor
  · unfold trimPath
    rw [if_pos h]
    show s.data
        = (s.data.reverse.dropWhile isTrimChar).reverse
          ++ (s.data.reverse.takeWhile isTrimChar).reverse
    rw [← List.reverse_append, List.takeWhile_append_dropWhile, List.reverse_reverse]
  · intro c hc
    rw [List.mem_reverse] at hc
    exact List.mem_takeWhile_imp hc

theorem trimPath_no_trailing (s : String) (h : s.data.count '/' > 1) (c : Char)
    (hc : (trimPath s).data.getLast? = some c) : isTrimChar c = false := by
  unfold trimPath at hc
  rw [if_pos h] at hc
  rw [List.getLast?_reverse] at hc
  exact dropWhile_head_not isTrimChar _ c hc

/-! ### Sorting-by-group-index lemmas -/

theorem sortByIndex_perm (gi : List (String × Nat)) : (sortByIndex gi).Perm gi :=
  List.perm_insertionSort idxLe gi

theorem sortByIndex_sorted (gi : List (String × Nat)) : List.Sorted idxLe (sortByIndex gi) :=
  List.sorted_insertionSort idxLe gi

theorem sortByIndex_eq_of_perm (gi gi' : List (String × Nat))
    (hnodup : (gi.map Prod.snd).Nodup) (hperm : gi.Perm gi') :
    sortByIndex gi = sortByIndex gi' := by
  have p1 := List.perm_insertionSort idxLe gi
  have p2 := List.perm_insertionSort idxLe gi'
  have hnd1 : gi.Pairwise (fun a b : String × Nat => a.2 ≠ b.2) := by
    rw [List.Nodup, List.pairwise_map] at hnodup
    exact hnodup
  have hnd2 : gi'.Pairwise (fun a b : String × Nat => a.2 ≠ b.2) :=
    (List.Perm.pairwise_iff (fun h => Ne.symm h) hperm).mp hnd1
  have s1 : (sortByIndex gi).Pairwise (fun a b : String × Nat => a.2 ≠ b.2) :=
    (List.Perm.pairwise_iff (fun h => Ne.symm h) p1).mpr hnd1
  have s2 : (sortByIndex gi').Pairwise (fun a b : String × Nat => a.2 ≠ b.2) :=
    (List.Perm.pairwise_iff (fun h => Ne.symm h) p2).mpr hnd2
  have lt1 : List.Sorted idxLt (sortByIndex gi) :=
    (List.Pairwise.and (sortByIndex_sorted gi) s1).imp
      (fun h => Nat.lt_of_le_of_ne h.1 h.2)
  have lt2 : List.Sorted idxLt (sortByIndex gi') :=
    (List.Pairwise.and (sortByIndex_sorted gi') s2).imp
      (fun h => Nat.lt_of_le_of_ne h.1 h.2)
  exact List.eq_of_perm_of_sorted (p1.trans (hperm.trans p2.symm)) lt1 lt2

/-! ### Path Normalizer branch lemmas -/

theorem tornadopath2openapi_nogroups (gi : List (String × Nat)) (tpl : String)
    (h : HandlerClass) (m : List String) :
    tornadopath2openapi ⟨⟨0, gi⟩, tpl, h⟩ m = Except.ok (trimPath tpl) := by
  unfold tornadopath2openapi
  rw [if_neg (Nat.lt_irrefl 0)]

theorem tornadopath2openapi_named (g : Nat) (gi : List (String × Nat)) (tpl : String)
    (h : HandlerClass) (m : List String) (hg : 0 < g) (hne : gi ≠ []) :
    tornadopath2openapi ⟨⟨g, gi⟩, tpl, h⟩ m
      = Except.map trimPath
          (formatPercent tpl (((sortByIndex gi).map Prod.fst).map braceArg)) := by
  have hgi : (!gi.isEmpty) = true := by
    cases gi
    · exact absurd rfl hne
    · rfl
  unfold tornadopath2openapi
  rw [if_pos hg, if_pos hgi]

theorem tornadopath2openapi_unnamed (g : Nat) (tpl : String) (h : HandlerClass)
    (m : List String) (hg : 0 < g) :
    tornadopath2openapi ⟨⟨g, []⟩, tpl, h⟩ m
      = Except.map trimPath (formatPercent tpl ((m.drop 1).map braceArg)) := by
  unfold tornadopath2openapi
  rw [if_pos hg]
  rfl

/-! ### Claim theorems -/

/-- C2: for every route pattern whose compiled regex has capturing groups and a non-empty
name-to-group-index mapping, the Path Normalizer renders the template's positional slots
with the group names sorted by ascending group index (`sortByIndex` is a sorted permutation
of the mapping), and — when the group indices are distinct — the output is the same for any
declaration order of the mapping and for any method argument. -/
theorem c2_named_groups_sorted_by_index
    (g : Nat) (gi gi' : List (String × Nat)) (tpl : String) (h h' : HandlerClass)
    (m m' : List String) (hg : 0 < g) (hne : gi ≠ [])
    (hnodup : (gi.map Prod.snd).Nodup) (hperm : gi.Perm gi') :
    tornadopath2openapi ⟨⟨g, gi⟩, tpl, h⟩ m
        = Except.map trimPath
            (formatPercent tpl (((sortByIndex gi).map Prod.fst).map braceArg))
      ∧ (sortByIndex gi).Perm gi
      ∧ List.Sorted idxLe (sortByIndex gi)
      ∧ tornadopath2openapi ⟨⟨g, gi⟩, tpl, h⟩ m
        = tornadopath2openapi ⟨⟨g, gi'⟩, tpl, h'⟩ m' := by
  have hne' : gi' ≠ [] := by
    intro hnil
    rw [hnil] at hperm
    exact hne hperm.eq_nil
  refine ⟨tornadopath2openapi_named g gi tpl h m hg hne,
    sortByIndex_perm gi, sortByIndex_sorted gi, ?_⟩
  rw [tornadopath2openapi_named g gi tpl h m hg hne,
    tornadopath2openapi_named g gi' tpl h' m' hg hne',
    sortByIndex_eq_of_perm gi gi' hnodup hperm]

/-- C2 witness: named groups at indices `name ↦ 1`, `id ↦ 2` over `"/items/%s/%s"`, in
either declaration order, render `"/items/{name}/{id}"`. -/
theorem c2_witness :
    tornadopath2openapi ⟨⟨2, [("name", 1), ("id", 2)]⟩, "/items/%s/%s", nodocHandler⟩ []
        = Except.ok "/items/\x7bname\x7d/\x7bid\x7d"
      ∧ tornadopath2openapi ⟨⟨2, [("id", 2), ("name", 1)]⟩, "/items/%s/%s", nodocHandler⟩
          ["self"]
        = Except.ok "/items/\x7bname\x7d/\x7bid\x7d" := by
  have h := c2_named_groups_sorted_by_index 2 [("name", 1), ("id", 2)] [("id", 2), ("name", 1)]
    "/items/%s/%s" nodocHandler nodocHandler [] ["self"] (by decide) (by decide) (by decide)
    (by decide)
  exact ⟨h.1.trans rfl, (h.2.2.2.symm).trans (h.1.trans rfl)⟩

/-- C3: for every route pattern whose compiled regex has capturing groups but no named
groups, the Path Normalizer takes the supplied method's declared parameter names in
declaration order with the first one dropped; the name of the dropped first parameter (and
the handler) do not influence the result. -/
theorem c3_unnamed_groups_use_method_params (g : Nat) (tpl : String) (h h' : HandlerClass)
    (p0 p0' : String) (ps : List String) (hg : 0 < g) :
    tornadopath2openapi ⟨⟨g, []⟩, tpl, h⟩ (p0 :: ps)
        = Except.map trimPath (formatPercent tpl (ps.map braceArg))
      ∧ tornadopath2openapi ⟨⟨g, []⟩, tpl, h⟩ (p0 :: ps)
        = tornadopath2openapi ⟨⟨g, []⟩, tpl, h'⟩ (p0' :: ps) := by
  refine ⟨tornadopath2openapi_unnamed g tpl h (p0 :: ps) hg, ?_⟩
  rw [tornadopath2openapi_unnamed g tpl h (p0 :: ps) hg,
    tornadopath2openapi_unnamed g tpl h' (p0' :: ps) hg]
  rfl

/-- C3 witness: two unnamed groups with method parameters `(self, user_id, post_id)` over
`"/users/%s/posts/%s"` render `"/users/{user_id}/posts/{post_id}"`, whatever the first
parameter is called. -/
theorem c3_witness :
    tornadopath2openapi ⟨⟨2, []⟩, "/users/%s/posts/%s", nodocHandler⟩
        ["self", "user_id", "post_id"]
        = Except.ok "/users/\x7buser_id\x7d/posts/\x7bpost_id\x7d"
      ∧ tornadopath2openapi ⟨⟨2, []⟩, "/users/%s/posts/%s", nodocHandler⟩
          ["self", "user_id", "post_id"]
        = tornadopath2openapi ⟨⟨2, []⟩, "/users/%s/posts/%s", demoHandler⟩
          ["cls", "user_id", "post_id"] := by
  have h := c3_unnamed_groups_use_method_params 2 "/users/%s/posts/%s" nodocHandler
    demoHandler "self" "cls" ["user_id", "post_id"] (by decide)
  exact ⟨h.1.trans rfl, h.2⟩

/-- C10: the Path Normalizer consults the method reference only as a fallback: whenever the
compiled regex has named capture groups, or has no capturing groups at all, its output is
identical for any two method arguments (and any two handlers). It never reads the
operations mapping — the mapping is not even an input of `tornadopath2openapi`. -/
theorem c10_normalizer_method_independent (g : Nat) (gi : List (String × Nat))
    (tpl : String) (h h' : HandlerClass) (m m' : List String)
    (hcase : gi ≠ [] ∨ g = 0) :
    tornadopath2openapi ⟨⟨g, gi⟩, tpl, h⟩ m = tornadopath2openapi ⟨⟨g, gi⟩, tpl, h'⟩ m' := by
  rcases hcase with hne | hz
  · by_cases hg : 0 < g
    · rw [tornadopath2openapi_named g gi tpl h m hg hne,
        tornadopath2openapi_named g gi tpl h' m' hg hne]
    · have hz : g = 0 := by omega
      subst hz
      rw [tornadopath2openapi_nogroups, tornadopath2openapi_nogroups]
  · subst hz
    rw [tornadopath2openapi_nogroups, tornadopath2openapi_nogroups]

/-- C10 witness: with a named group (or no groups), changing the method argument and the
handler does not change the rendered path. -/
theorem c10_witness :
    tornadopath2openapi ⟨⟨1, [("x", 1)]⟩, "/a/%s", nodocHandler⟩ ["self", "y"]
        = tornadopath2openapi ⟨⟨1, [("x", 1)]⟩, "/a/%s", demoHandler⟩ []
      ∧ tornadopath2openapi ⟨⟨0, []⟩, "/hello", nodocHandler⟩ ["self"]
        = tornadopath2openapi ⟨⟨0, []⟩, "/hello", demoHandler⟩ [] :=
  ⟨c10_normalizer_method_independent 1 [("x", 1)] "/a/%s" nodocHandler demoHandler
      ["self", "y"] [] (Or.inl (by decide)),
    c10_normalizer_method_independent 0 [] "/hello" nodocHandler demoHandler ["self"] []
      (Or.inr rfl)⟩

/-- C4: the Path Normalizer's final step applies the trailing trim exactly when the path
has more than one `/`: with at most one `/` the path is returned unchanged; with more than
one `/` the result is the longest prefix whose dropped suffix consists only of `/`, `?`,
`*` characters (so the result no longer ends in such a character). With zero capturing
groups the output is the original template modulo this trim. -/
theorem c4_trailing_trim (gi : List (String × Nat)) (tpl : String) (h : HandlerClass)
    (m : List String) (s : String) :
    tornadopath2openapi ⟨⟨0, gi⟩, tpl, h⟩ m = Except.ok (trimPath tpl)
      ∧ (¬s.data.count '/' > 1 → trimPath s = s)
      ∧ (s.data.count '/' > 1 →
          s.data = (trimPath s).data ++ (s.data.reverse.takeWhile isTrimChar).reverse
            ∧ (∀ c ∈ (s.data.reverse.takeWhile isTrimChar).reverse, isTrimChar c = true)
            ∧ ∀ c, (trimPath s).data.getLast? = some c → isTrimChar c = false) :=
  ⟨tornadopath2openapi_nogroups gi tpl h m, trimPath_of_count_le s,
    fun hgt => ⟨(trimPath_decomp s hgt).1, (trimPath_decomp s hgt).2,
      trimPath_no_trailing s hgt⟩⟩

/-- C4 witness: `"/a/b/?"` (three `/`) trims to `"/a/b"`; `"/?"` (one `/`) stays `"/?"`. -/
theorem c4_witness :
    tornadopath2openapi ⟨⟨0, []⟩, "/a/b/?", nodocHandler⟩ [] = Except.ok "/a/b"
      ∧ tornadopath2openapi ⟨⟨0, []⟩, "/?", nodocHandler⟩ [] = Except.ok "/?"
      ∧ trimPath "/?" = "/?" := by
  have h1 := c4_trailing_trim [] "/a/b/?" nodocHandler [] "/a/b/?"
  have h2 := c4_trailing_trim [] "/?" nodocHandler [] "/?"
  have ht : trimPath "/?" = "/?" := h2.2.1 (by decide)
  exact ⟨h1.1.trans rfl, h2.1.trans (by rw [ht]), ht⟩

/-! ### Operation Extractor lemmas -/

theorem extensions_from_handler_of_doc (parse : Option String → List (String × Data))
    (hc : HandlerClass) (hdoc : docTruthy hc.doc = true) :
    extensions_from_handler parse hc = Except.ok (parse hc.doc) := by
  unfold extensions_from_handler
  rw [if_pos hdoc]

theorem operations_from_methods_keys (pathKeys : List String)
    (parse : Option String → List (String × Data)) (hc : HandlerClass) :
    (operations_from_methods pathKeys parse hc).map Prod.fst
      = pathKeys.filter (fun v => !(parse (hc.verbDoc v)).isEmpty) := by
  induction pathKeys with
  | nil => rfl
  | cons v t ih =>
    simp only [operations_from_methods, List.filterMap_cons, List.filter_cons] at ih ⊢
    by_cases hv : (parse (hc.verbDoc v)).isEmpty
    · simp [hv, ih]
    · simp [hv, ih]

theorem operations_from_methods_mem (pathKeys : List String)
    (parse : Option String → List (String × Data)) (hc : HandlerClass)
    (v : String) (od : Data) :
    (v, od) ∈ operations_from_methods pathKeys parse hc
      ↔ v ∈ pathKeys ∧ parse (hc.verbDoc v) ≠ [] ∧ od = Data.m (parse (hc.verbDoc v)) := by
  simp only [operations_from_methods, List.mem_filterMap]
  constructor
  · rintro ⟨a, ha, heq⟩
    by_cases hv : (parse (hc.verbDoc a)).isEmpty
    · rw [if_pos hv] at heq
      exact absurd heq (by simp)
    · rw [if_neg hv] at heq
      simp only [Option.some.injEq, Prod.mk.injEq] at heq
      obtain ⟨hav, hod⟩ := heq
      subst hav
      refine ⟨ha, ?_, hod.symm⟩
      intro hnil
      exact hv (by simp [hnil])
  · rintro ⟨hv, hne, hod⟩
    refine ⟨v, hv, ?_⟩
    rw [if_neg (fun habs => hne (by simpa using habs))]
    rw [hod]

/-- C6: the Operation Extractor yields its `(verb, operation-description)` pairs in the
order of the fixed recognized-verb enumeration — the emitted verb list equals the
enumeration filtered to the verbs whose docstring parses to a non-empty result, hence is a
sublist of the enumeration — and it omits, without any error, every verb that is absent
from the handler (no docstring) or whose docstring yields an empty parse result. -/
theorem c6_operation_extractor (pathKeys : List String)
    (parse : Option String → List (String × Data)) (hc : HandlerClass)
    (hparse : parse none = []) :
    ((operations_from_methods pathKeys parse hc).map Prod.fst
        = pathKeys.filter (fun v => !(parse (hc.verbDoc v)).isEmpty))
      ∧ ((operations_from_methods pathKeys parse hc).map Prod.fst).Sublist pathKeys
      ∧ (∀ v od, (v, od) ∈ operations_from_methods pathKeys parse hc
          ↔ v ∈ pathKeys ∧ parse (hc.verbDoc v) ≠ []
              ∧ od = Data.m (parse (hc.verbDoc v)))
      ∧ (∀ v, hc.verbDoc v = none →
          ∀ od, (v, od) ∉ operations_from_methods pathKeys parse hc) := by
  refine ⟨operations_from_methods_keys pathKeys parse hc, ?_, ?_, ?_⟩
  · rw [operations_from_methods_keys pathKeys parse hc]
    exact List.filter_sublist pathKeys
  · exact operations_from_methods_mem pathKeys parse hc
  · intro v hvd od hmem
    have h := (operations_from_methods_mem pathKeys parse hc v od).mp hmem
    rw [hvd, hparse] at h
    exact h.2.1 rfl

/-- C6 witness: over the concrete enumeration, a handler documenting only `get` yields
exactly the `get` pair; `put`, which has no docstring, is omitted. -/
theorem c6_witness :
    (operations_from_methods PATH_KEYS demoParse demoHandler).map Prod.fst = ["get"]
      ∧ ∀ od, ("put", od) ∉ operations_from_methods PATH_KEYS demoParse demoHandler := by
  have h := c6_operation_extractor PATH_KEYS demoParse demoHandler rfl
  exact ⟨h.1.trans (by rfl), fun od => h.2.2.2 "put" rfl od⟩

/-! ### Orchestration (`path_helper`) lemmas -/

theorem path_helper_none_eq (pathKeys : List String)
    (parse : Option String → List (String × Data)) (us : URLSpec) :
    path_helper pathKeys parse none us = Except.error PyError.assertionError := rfl

theorem path_helper_empty_eq (pathKeys : List String)
    (parse : Option String → List (String × Data)) (us : URLSpec) :
    path_helper pathKeys parse (some []) us = Except.error PyError.assertionError := rfl

theorem ops1_cons (pathKeys : List String) (parse : Option String → List (String × Data))
    (hc : HandlerClass) (ops0 : List (String × Data)) (hops : ops0 ≠ []) :
    ∃ q qs, (operations_from_methods pathKeys parse hc).foldl
        (fun acc op => dictUpdate1 acc op.1 op.2) ops0 = q :: qs := by
  rcases hcase : (operations_from_methods pathKeys parse hc).foldl
      (fun acc op => dictUpdate1 acc op.1 op.2) ops0 with _ | ⟨q, qs⟩
  · exact absurd hcase (foldl_dictUpdate1_ne_nil _ ops0 hops)
  · exact ⟨q, qs, hcase⟩

/-- C5: the entry point requires a truthy operations mapping: a call with an absent
(`None`) or empty operations mapping fails with the assertion error — independently of the
verb enumeration, the parser and the route, so before any extraction can matter — and for
every call that passes the entry assertion (non-empty mapping) the `APISpecError` branch is
unreachable: the result is never that error. -/
theorem c5_assert_gate :
    (∀ (pathKeys : List String) (parse : Option String → List (String × Data))
        (us : URLSpec),
        path_helper pathKeys parse none us = Except.error PyError.assertionError)
      ∧ (∀ (pathKeys : List String) (parse : Option String → List (String × Data))
          (us : URLSpec),
          path_helper pathKeys parse (some []) us = Except.error PyError.assertionError)
      ∧ (∀ (pathKeys : List String) (parse : Option String → List (String × Data))
          (ops0 : List (String × Data)) (us : URLSpec) (msg : String), ops0 ≠ [] →
          path_helper pathKeys parse (some ops0) us
            ≠ Except.error (PyError.apiSpecError msg)) := by
  refine ⟨fun _ _ _ => rfl, fun _ _ _ => rfl, ?_⟩
  intro pathKeys parse ops0 us msg hops heq
  have h0 : ops0.isEmpty = false := by
    cases ops0
    · exact absurd rfl hops
    · rfl
  obtain ⟨q, qs, hq⟩ := ops1_cons pathKeys parse us.handler_class ops0 hops
  simp only [path_helper, h0, Bool.false_eq_true, if_false] at heq
  rw [hq] at heq
  simp only [List.isEmpty_cons, Bool.false_eq_true, if_false, List.map_cons,
    List.head?_cons] at heq
  rcases hext : extensions_from_handler parse us.handler_class with e | ext
  · rw [hext] at heq
    unfold extensions_from_handler at hext
    split at hext
    · exact absurd hext (by simp)
    · simp only [Except.error.injEq] at hext
      subst hext
      simp at heq
  · rw [hext] at heq
    rcases htorn : tornadopath2openapi us (us.handler_class.verbParams q.1) with e2 | pp
    · rw [htorn] at heq
      simp at heq
    · rw [htorn] at heq
      simp at heq

/-- C5 witness: a call that passes the entry assertion cannot produce the `APISpecError`. -/
theorem c5_witness :
    path_helper PATH_KEYS emptyParse (some [("x", Data.m [])])
        ⟨⟨0, []⟩, "/hello", demoHandler⟩
      ≠ Except.error (PyError.apiSpecError "/hello") :=
  c5_assert_gate.2.2 PATH_KEYS emptyParse [("x", Data.m [])]
    ⟨⟨0, []⟩, "/hello", demoHandler⟩ "/hello" (List.cons_ne_nil _ _)

/-- C1 (exhibit of the code's behaviour at the claim's scenario): a handler with zero
documented verb methods, entering with the empty operations dict, makes the call fail with
the `assert operations` assertion error at entry — extraction never runs and the
`APISpecError` raise that the claim describes is not reached (by `c5_assert_gate` it is
unreachable for every call that passes the assertion). -/
theorem c1_empty_operations_hits_assert_not_apispecerror :
    path_helper PATH_KEYS emptyParse (some []) ⟨⟨0, []⟩, "/hello", nodocHandler⟩
      = Except.error PyError.assertionError := rfl

/-- C8: Handler Metadata Extraction fails with the assertion-style precondition failure
exactly for a handler whose class docstring is absent (`None`) or empty, and for a handler
with a non-empty class docstring it returns the external docstring parser's result. -/
theorem c8_extensions_assert (parse : Option String → List (String × Data))
    (hc : HandlerClass) :
    ((hc.doc = none ∨ hc.doc = some "") →
        extensions_from_handler parse hc = Except.error PyError.assertionError)
      ∧ (∀ d, hc.doc = some d → d ≠ "" →
          extensions_from_handler parse hc = Except.ok (parse (some d))) := by
  constructor
  · intro hdoc
    unfold extensions_from_handler
    rcases hdoc with h | h <;> rw [h] <;> rfl
  · intro d hd hne
    have hdt : docTruthy (some d) = true := by
      simp [docTruthy, hne]
    unfold extensions_from_handler
    rw [hd, if_pos hdt]

/-- C8 witness: an undocumented handler trips the assertion; a documented one returns the
parser's mapping. -/
theorem c8_witness :
    extensions_from_handler demoParse nodocHandler = Except.error PyError.assertionError
      ∧ extensions_from_handler demoParse demoHandler
        = Except.ok (demoParse (some "classdoc")) :=
  ⟨(c8_extensions_assert demoParse nodocHandler).1 (Or.inl rfl),
    (c8_extensions_assert demoParse demoHandler).2 "classdoc" rfl (by decide)⟩

/-- C7: the handler-level metadata is merged into the operations mapping after the
per-method operations, with overwrite-on-collision (last-write-wins) semantics: whenever
`path_helper` succeeds, every key defined by the handler-level metadata maps in the final
operations mapping to its handler-level value, whatever the per-method extraction wrote
there. -/
theorem c7_handler_metadata_wins (pathKeys : List String)
    (parse : Option String → List (String × Data)) (ops0 : List (String × Data))
    (us : URLSpec) (p : String) (ops' : List (String × Data))
    (hrun : path_helper pathKeys parse (some ops0) us = Except.ok (p, ops'))
    (hnodup : ((parse us.handler_class.doc).map Prod.fst).Nodup)
    (k : String) (hk : k ∈ (parse us.handler_class.doc).map Prod.fst) :
    dictGet ops' k = dictGet (parse us.handler_class.doc) k := by
  have hops : ops0 ≠ [] := by
    intro hnil
    subst hnil
    rw [path_helper_empty_eq] at hrun
    exact absurd hrun (by simp)
  have h0 : ops0.isEmpty = false := by
    cases ops0
    · exact absurd rfl hops
    · rfl
  obtain ⟨q, qs, hq⟩ := ops1_cons pathKeys parse us.handler_class ops0 hops
  simp only [path_helper, h0, Bool.false_eq_true, if_false] at hrun
  rw [hq] at hrun
  simp only [List.isEmpty_cons, Bool.false_eq_true, if_false, List.map_cons,
    List.head?_cons] at hrun
  rcases hext : extensions_from_handler parse us.handler_class with e | ext
  · rw [hext] at hrun
    exact absurd hrun (by simp)
  · rw [hext] at hrun
    rcases htorn : tornadopath2openapi us (us.handler_class.verbParams q.1) with e2 | pp
    · rw [htorn] at hrun
      exact absurd hrun (by simp)
    · rw [htorn] at hrun
      simp only [Except.ok.injEq, Prod.mk.injEq] at hrun
      obtain ⟨-, hops'⟩ := hrun
      have hdoc : ext = parse us.handler_class.doc := by
        unfold extensions_from_handler at hext
        split at hext
        · exact (Except.ok.inj hext).symm
        · exact absurd hext (by simp)
      subst hdoc
      rw [← hops']
      exact dictGet_dictUpdate_mem _ _ _ hnodup hk

/-- C7 witness: the handler metadata defines the key `get`, which the extraction also
wrote; the final mapping holds the handler-level value for it. -/
theorem c7_witness :
    dictGet
        [("post", Data.m []), ("get", Data.s "handlerwins"), ("tags", Data.s "handler")]
        "get" = some (Data.s "handlerwins")
      ∧ dictGet (demoParse (some "classdoc")) "get" = some (Data.s "handlerwins") := by
  have h := c7_handler_metadata_wins PATH_KEYS demoParse [("post", Data.m [])]
    ⟨⟨0, []⟩, "/hello", demoHandler⟩ "/hello"
    [("post", Data.m []), ("get", Data.s "handlerwins"), ("tags", Data.s "handler")]
    rfl (by decide) "get" (by decide)
  exact ⟨h.trans rfl, rfl⟩

/-- C9: when the derived parameter names disagree in count with the template's `%s` slots,
the string-substitution step fails with the underlying formatting error — too few names
(the claim's "more slots than names") in both the unnamed-groups and named-groups cases,
and too many names symmetrically — and such a normalizer failure propagates through
`path_helper` to the caller untranslated, wrapped only as the uncaught Python exception. -/
theorem c9_format_mismatch_propagates (g : Nat) (gi : List (String × Nat)) (tpl : String)
    (hc : HandlerClass) (m : List String) (hg : 0 < g)
    (hwf : wellFormedTpl tpl.data = true) :
    (gi = [] → (m.drop 1).length < slotCount tpl.data →
        tornadopath2openapi ⟨⟨g, gi⟩, tpl, hc⟩ m
          = Except.error "not enough arguments for format string")
      ∧ (gi ≠ [] → gi.length < slotCount tpl.data →
          tornadopath2openapi ⟨⟨g, gi⟩, tpl, hc⟩ m
            = Except.error "not enough arguments for format string")
      ∧ (gi ≠ [] → slotCount tpl.data < gi.length →
          tornadopath2openapi ⟨⟨g, gi⟩, tpl, hc⟩ m
            = Except.error "not all arguments converted during string formatting")
      ∧ (∀ (pathKeys : List String) (parse : Option String → List (String × Data))
          (ops0 : List (String × Data)) (e : String), ops0 ≠ [] →
          docTruthy hc.doc = true →
          (∀ k, tornadopath2openapi ⟨⟨g, gi⟩, tpl, hc⟩ (hc.verbParams k)
            = Except.error e) →
          path_helper pathKeys parse (some ops0) ⟨⟨g, gi⟩, tpl, hc⟩
            = Except.error (PyError.formatError e)) := by
  refine ⟨?_, ?_, ?_, ?_⟩
  · intro hnil hlen
    subst hnil
    rw [tornadopath2openapi_unnamed g tpl hc m hg]
    have hlen' : (((m.drop 1).map braceArg)).length < slotCount tpl.data := by
      rw [List.length_map]
      exact hlen
    unfold formatPercent
    rw [pformat_not_enough tpl.data _ hwf hlen']
    rfl
  · intro hne hlen
    rw [tornadopath2openapi_named g gi tpl hc m hg hne]
    have hlen' : (((sortByIndex gi).map Prod.fst).map braceArg).length
        < slotCount tpl.data := by
      rw [List.length_map, List.length_map, (sortByIndex_perm gi).length_eq]
      exact hlen
    unfold formatPercent
    rw [pformat_not_enough tpl.data _ hwf hlen']
    rfl
  · intro hne hlen
    rw [tornadopath2openapi_named g gi tpl hc m hg hne]
    have hlen' : slotCount tpl.data
        < (((sortByIndex gi).map Prod.fst).map braceArg).length := by
      rw [List.length_map, List.length_map, (sortByIndex_perm gi).length_eq]
      exact hlen
    unfold formatPercent
    rw [pformat_too_many tpl.data _ hwf hlen']
    rfl
  · intro pathKeys parse ops0 e hops hdoc hall
    have h0 : ops0.isEmpty = false := by
      cases ops0
      · exact absurd rfl hops
      · rfl
    obtain ⟨q, qs, hq⟩ := ops1_cons pathKeys parse hc ops0 hops
    simp only [path_helper, h0, Bool.false_eq_true, if_false]
    rw [hq]
    simp only [List.isEmpty_cons, Bool.false_eq_true, if_false, List.map_cons,
      List.head?_cons]
    rw [extensions_from_handler_of_doc parse hc hdoc]
    rw [hall q.1]

/-- C9 witness: one named group over a two-slot template fails with the Python formatting
error, and the failure surfaces unchanged through the entry point. -/
theorem c9_witness :
    tornadopath2openapi ⟨⟨1, [("x", 1)]⟩, "/a/%s/%s", classdocHandler⟩ ["self"]
        = Except.error "not enough arguments for format string"
      ∧ path_helper PATH_KEYS demoParse (some [("get", Data.m [])])
          ⟨⟨1, [("x", 1)]⟩, "/a/%s/%s", classdocHandler⟩
        = Except.error (PyError.formatError "not enough arguments for format string") := by
  have h := c9_format_mismatch_propagates 1 [("x", 1)] "/a/%s/%s" classdocHandler ["self"]
    (by decide) (by decide)
  have hmain := h.2.1 (by decide) (by decide)
  refine ⟨hmain, h.2.2.2 PATH_KEYS demoParse [("get", Data.m [])]
    "not enough arguments for format string" (List.cons_ne_nil _ _) (by decide) ?_⟩
  intro k
  exact (c9_format_mismatch_propagates 1 [("x", 1)] "/a/%s/%s" classdocHandler
    (classdocHandler.verbParams k) (by decide) (by decide)).2.1 (by decide) (by decide)

end ApispecTornado
